import Mathlib

/-
Verification development for the pyAFQ excerpt consisting of
`AFQ/_fixes.py` (tracking generator, `gaussian_weights`, `tensor_odf`)
and `AFQ/api/bundle_dict.py` (`_GeneratedBundleDict`, `BundleDict`).

Conventions of the shallow embedding:
* numpy float arrays are modelled over `ℝ`; 3-vectors and 3×3 matrices
  are the structures `Vec3` and `Mat3` below;
* the IEEE special values produced by the exact zero/valid inputs the
  claims exercise (`1/0 = +inf`, `inf/inf = nan`, `sqrt(negative) = nan`)
  are modelled by the type `EF` (finite / +inf / nan); the code under
  scrutiny only ever divides non-negative quantities, so a negative
  infinity constructor is not needed;
* `np.linalg.matrix_rank v == 3` for a 3×3 matrix is modelled as
  `det3 v ≠ 0` (exact-arithmetic rank);
* streamlines are lists of `Vec3`, a bundle is a list of streamlines.
  Resampling (`dipy.tracking.streamline.set_number_of_points`) is an
  external collaborator; bundles are taken already resampled, which is
  the shape the claims quantify over.
-/

/-- A 3-vector of reals (one point of a streamline, a direction, or a
row of eigenvalues). -/
structure Vec3 where
  x : ℝ
  y : ℝ
  z : ℝ

def Vec3.add (a b : Vec3) : Vec3 := ⟨a.x + b.x, a.y + b.y, a.z + b.z⟩

def Vec3.sub (a b : Vec3) : Vec3 := ⟨a.x - b.x, a.y - b.y, a.z - b.z⟩

def Vec3.neg (a : Vec3) : Vec3 := ⟨-a.x, -a.y, -a.z⟩

def Vec3.dot (a b : Vec3) : ℝ := a.x * b.x + a.y * b.y + a.z * b.z

/-- A 3×3 real matrix, row-major fields. -/
structure Mat3 where
  m00 : ℝ
  m01 : ℝ
  m02 : ℝ
  m10 : ℝ
  m11 : ℝ
  m12 : ℝ
  m20 : ℝ
  m21 : ℝ
  m22 : ℝ

/-- Matrix-vector product `M @ v`. -/
def Mat3.mulVec (M : Mat3) (v : Vec3) : Vec3 :=
  ⟨M.m00 * v.x + M.m01 * v.y + M.m02 * v.z,
   M.m10 * v.x + M.m11 * v.y + M.m12 * v.z,
   M.m20 * v.x + M.m21 * v.y + M.m22 * v.z⟩

/-- Row-vector-matrix product `v @ M` (numpy `np.dot` of a vector with a
matrix on the right). -/
def vecMat (v : Vec3) (M : Mat3) : Vec3 :=
  ⟨v.x * M.m00 + v.y * M.m10 + v.z * M.m20,
   v.x * M.m01 + v.y * M.m11 + v.z * M.m21,
   v.x * M.m02 + v.y * M.m12 + v.z * M.m22⟩

/-- The quadratic form `(d @ M) · d`, i.e. `np.sum((d @ M) * d)` as in
the Mahalanobis computation of `gaussian_weights`. -/
def quadForm (d : Vec3) (M : Mat3) : ℝ := Vec3.dot (vecMat d M) d

def det3 (M : Mat3) : ℝ :=
  M.m00 * (M.m11 * M.m22 - M.m12 * M.m21)
    - M.m01 * (M.m10 * M.m22 - M.m12 * M.m20)
    + M.m02 * (M.m10 * M.m21 - M.m11 * M.m20)

/-- Matrix inverse by the adjugate formula (`np.linalg.inv` on a 3×3
matrix, exact arithmetic). Only used where the determinant is nonzero. -/
noncomputable def inv3 (M : Mat3) : Mat3 :=
  let dt := det3 M
  ⟨(M.m11 * M.m22 - M.m12 * M.m21) / dt,
   -(M.m01 * M.m22 - M.m02 * M.m21) / dt,
   (M.m01 * M.m12 - M.m02 * M.m11) / dt,
   -(M.m10 * M.m22 - M.m12 * M.m20) / dt,
   (M.m00 * M.m22 - M.m02 * M.m20) / dt,
   -(M.m00 * M.m12 - M.m02 * M.m10) / dt,
   (M.m10 * M.m21 - M.m11 * M.m20) / dt,
   -(M.m00 * M.m21 - M.m01 * M.m20) / dt,
   (M.m00 * M.m11 - M.m01 * M.m10) / dt⟩

/-- Zero out the strictly lower triangle (`np.triu`). -/
def triu3 (M : Mat3) : Mat3 :=
  ⟨M.m00, M.m01, M.m02, 0, M.m11, M.m12, 0, 0, M.m22⟩

/-- Float values arising in `gaussian_weights`: a finite real, `+inf`
(from `1/0`), or `nan` (from `inf/inf`, `0/0`, or `sqrt` of a negative).
All quantities the code divides are non-negative, so `-inf` never
arises. -/
inductive EF
  | fin (q : ℝ)
  | pinf
  | nan

/-- Float reciprocal `1 / w` (numpy broadcasting of `1 / weights`). -/
noncomputable def EF.recip : EF → EF
  | .fin q => if q = 0 then .pinf else .fin q⁻¹
  | .pinf => .fin 0
  | .nan => .nan

/-- Float addition, restricted to the non-negative regime used here. -/
noncomputable def EF.add : EF → EF → EF
  | .nan, _ => .nan
  | _, .nan => .nan
  | .pinf, _ => .pinf
  | _, .pinf => .pinf
  | .fin a, .fin b => .fin (a + b)

/-- Float division, restricted to the non-negative regime used here
(the dividend and divisor are sums/reciprocals of distances, hence
never negative, so the `±inf` sign question does not arise). -/
noncomputable def EF.div : EF → EF → EF
  | .nan, _ => .nan
  | _, .nan => .nan
  | .fin a, .fin b => if b = 0 then (if a = 0 then .nan else .pinf) else .fin (a / b)
  | .fin _, .pinf => .fin 0
  | .pinf, .pinf => .nan
  | .pinf, .fin _ => .pinf

/-- `np.sum` over a list of float values (axis-0 column sum uses this). -/
noncomputable def efSum (l : List EF) : EF := l.foldr EF.add (.fin 0)

/-- `np.mean` of a list (also what `np.cov` centres with). -/
noncomputable def npMean (l : List ℝ) : ℝ := l.sum / l.length

/-- One entry of `np.cov(X, ddof=0)`: the mean-centred cross moment of
two coordinate lists. -/
noncomputable def covEntry (xs ys : List ℝ) : ℝ :=
  (((xs.zip ys).map fun p => (p.1 - npMean xs) * (p.2 - npMean ys)).sum) / xs.length

/-- `np.cov(pts.T, ddof=0)` for a list of 3-d points: the 3×3 spatial
covariance of the point cloud. -/
noncomputable def covMat (pts : List Vec3) : Mat3 :=
  let xs := pts.map Vec3.x
  let ys := pts.map Vec3.y
  let zs := pts.map Vec3.z
  ⟨covEntry xs xs, covEntry xs ys, covEntry xs zs,
   covEntry ys xs, covEntry ys ys, covEntry ys zs,
   covEntry zs xs, covEntry zs ys, covEntry zs zs⟩

/-- Apply the central-tendency statistic (`stat(sls, axis=0)`, default
`np.mean`) coordinatewise across a node's points. -/
noncomputable def statV (stat : List ℝ → ℝ) (pts : List Vec3) : Vec3 :=
  ⟨stat (pts.map Vec3.x), stat (pts.map Vec3.y), stat (pts.map Vec3.z)⟩

/-- `sls[:, i, :]`: the coordinates of node `i` across all streamlines. -/
def nodeCoords (sls : List (List Vec3)) (i : ℕ) : List Vec3 :=
  sls.map fun sl => sl.getD i ⟨0, 0, 0⟩

/-- `diff[s, i, :]` where `diff = stat(sls, axis=0) - sls`. -/
noncomputable def diffAt (stat : List ℝ → ℝ) (sls : List (List Vec3)) (s i : ℕ) : Vec3 :=
  Vec3.sub (statV stat (nodeCoords sls i)) ((sls.getD s []).getD i ⟨0, 0, 0⟩)

/-- Entry `(s, i)` of the `weights` array filled by the per-node loop of
`gaussian_weights`: `v_inv = np.triu(np.cov(sls[:, i, :].T, ddof=0))`;
if it has full rank (det ≠ 0) the entry is
`sqrt(np.sum((diff[s,i] @ inv(v_inv)) * diff[s,i]))` (`np.sqrt` of a
negative is nan), otherwise the whole column is set to `0`. -/
noncomputable def mahalEntry (stat : List ℝ → ℝ) (sls : List (List Vec3)) (s i : ℕ) : EF :=
  if det3 (triu3 (covMat (nodeCoords sls i))) ≠ 0 then
    (if 0 ≤ quadForm (diffAt stat sls s i) (inv3 (triu3 (covMat (nodeCoords sls i)))) then
      .fin (Real.sqrt (quadForm (diffAt stat sls s i) (inv3 (triu3 (covMat (nodeCoords sls i))))))
    else .nan)
  else .fin 0

/-- The full `weights` array (`n_sls × n_nodes`) of `gaussian_weights`;
`n_nodes` is the length of the first streamline (`sls.shape`). -/
noncomputable def mahalMatrix (stat : List ℝ → ℝ) (sls : List (List Vec3)) : List (List EF) :=
  (List.range sls.length).map fun s =>
    (List.range (sls.headD []).length).map fun i => mahalEntry stat sls s i

/-- The final two lines of `gaussian_weights`:
`weights = 1 / weights; return weights / np.sum(weights, 0)`. -/
noncomputable def normalizeWeights (W : List (List EF)) (nSls nNodes : ℕ) : List (List EF) :=
  let winv : ℕ → ℕ → EF := fun s i => EF.recip ((W.getD s []).getD i (.fin 0))
  (List.range nSls).map fun s =>
    (List.range nNodes).map fun i =>
      EF.div (winv s i) (efSum ((List.range nSls).map fun t => winv t i))

/-- `gaussian_weights(bundle, ...)` of `AFQ/_fixes.py` on an
already-resampled bundle. A single-streamline bundle returns the
one-element array `[nan]` (Mahalanobis mode) or `[1]` (weight mode),
modelled as the one-row one-column matrix. -/
noncomputable def gaussian_weights (bundle : List (List Vec3)) (stat : List ℝ → ℝ)
    (return_mahalnobis : Bool) : List (List EF) :=
  if bundle.length = 1 then
    (if return_mahalnobis then [[.nan]] else [[.fin 1]])
  else
    let W := mahalMatrix stat bundle
    if return_mahalnobis then W
    else normalizeWeights W bundle.length (bundle.headD []).length

/-- Entry `(s, i)` of a weights matrix, with the out-of-range default. -/
def outEntry (W : List (List EF)) (s i : ℕ) : EF := (W.getD s []).getD i (.fin 0)

/-- Written from the claim's words (claim C1), not from the code: the
textbook Mahalanobis distance `sqrt(d^T * Sigma^{-1} * d)` where `Sigma`
is the full spatial covariance of the node coordinates. To be compared
with what `gaussian_weights` actually computes. -/
noncomputable def claimMahalanobis (pts : List Vec3) (d : Vec3) : ℝ :=
  Real.sqrt (quadForm d (inv3 (covMat pts)))

/-- Concrete bundle for claim C1: four streamlines, one node each, with
mean 0 and a full-rank covariance having nonzero off-diagonal entries. -/
noncomputable def slsC1 : List (List Vec3) :=
  [[⟨1, 1, 0⟩], [⟨-1, 1, 0⟩], [⟨1, 0, 1⟩], [⟨-1, -2, -1⟩]]

/-- Concrete bundle used by witnesses for claims C1 and C2: two
streamlines, one shared node axis; the covariance of the node is the
all-ones matrix, whose upper triangle is invertible. -/
noncomputable def slsW : List (List Vec3) := [[⟨0, 0, 0⟩], [⟨2, 2, 2⟩]]

/-- Concrete bundle for claim C2: two streamlines that agree on their
single node, so the node's covariance is the zero matrix. -/
noncomputable def slsSame : List (List Vec3) := [[⟨1, 1, 1⟩], [⟨1, 1, 1⟩]]

/-- dipy's `StreamlineStatus` values consulted by the generator's
acceptance filter. -/
inductive StreamStatus
  | OUTSIDEIMAGE
  | INVALIDPOINT
  | TRACKPOINT
  | ENDPOINT
deriving DecidableEq

/-- The collaborators and options of `VerboseLocalTracking` /
`VerboseParticleFilteringTracking` as consumed by
`_verbose_generate_tractogram`:
* `lin` / `offset` are the linear part and offset of the inverse of
  `self.affine` (`np.linalg.inv` is an external numpy collaborator, so
  the environment holds the inverse's components directly);
* `initial_direction` and `tracker` are the direction-getter and
  `self._tracker` black boxes; `tracker s d` is pure and returns the
  filled buffer prefix `F[:steps]` together with the stream status, so
  calling it twice with the same arguments repeats the same run;
* the `random` / `np.random` seeding only mutates ambient RNG state read
  inside the black-box tracker, so it has no observable effect in this
  model; `tqdm` only wraps iteration. -/
structure TrackEnv where
  lin : Mat3
  offset : Vec3
  initial_direction : Vec3 → List Vec3
  tracker : Vec3 → Vec3 → List Vec3 × StreamStatus
  max_cross : Option ℕ
  return_all : Bool
  save_seeds : Bool
  min_length : ℕ
  max_length : ℕ

/-- `directions[:self.max_cross]`; a `None` bound keeps everything. -/
def takeMaxCross (mc : Option ℕ) (l : List Vec3) : List Vec3 :=
  match mc with
  | none => l
  | some k => l.take k

/-- The acceptance test applied to each tracker run:
`self.return_all or status == ENDPOINT or status == OUTSIDEIMAGE`. -/
def statusOK (return_all : Bool) (st : StreamStatus) : Bool :=
  return_all || st == .ENDPOINT || st == .OUTSIDEIMAGE

/-- `B[stepsB - 1:0:-1]` concatenated with `F[:stepsF]`, with the
`stepsB == 1` special case, where `F`/`B` are the filled prefixes. -/
def stitch (F B : List Vec3) : List Vec3 :=
  if B.length = 1 then F else (B.drop 1).reverse ++ F

/-- The tail of the loop body: yield the streamline (with the seed when
`save_seeds` is set) iff `min_length <= len_sl <= max_length`. -/
def lengthFilterYield (env : TrackEnv) (s : Vec3) (streamline : List Vec3) :
    List (List Vec3 × Option Vec3) :=
  if env.min_length ≤ streamline.length ∧ streamline.length ≤ env.max_length then
    [(streamline, if env.save_seeds then some s else none)]
  else []

/-- The body of the `for first_step in directions` loop of
`_verbose_generate_tractogram`: run the tracker forward, check the
status, run it backward (`first_step = -first_step`), check again, then
stitch and apply the length filter. -/
def processFirstStep (env : TrackEnv) (s first_step : Vec3) : List (List Vec3 × Option Vec3) :=
  if statusOK env.return_all (env.tracker s first_step).2 then
    if statusOK env.return_all (env.tracker s (Vec3.neg first_step)).2 then
      lengthFilterYield env s
        (stitch (env.tracker s first_step).1 (env.tracker s (Vec3.neg first_step)).1)
    else []
  else []

/-- The per-seed body of `_verbose_generate_tractogram`: transform the
seed by `lin`/`offset`, yield the bare seed when the direction getter
returns no directions and `return_all` is set, then run the first-step
loop over `directions[:max_cross]`. -/
def perSeed (env : TrackEnv) (s0 : Vec3) : List (List Vec3 × Option Vec3) :=
  let s := Vec3.add (Mat3.mulVec env.lin s0) env.offset
  let dirs := env.initial_direction s
  (if (dirs.isEmpty && env.return_all) = true then
      [([s], if env.save_seeds then some s else none)]
    else [])
    ++ (takeMaxCross env.max_cross dirs).flatMap (processFirstStep env s)

/-- All items yielded by `_verbose_generate_tractogram`, in order. -/
def generate_tractogram (env : TrackEnv) (seeds : List Vec3) : List (List Vec3 × Option Vec3) :=
  seeds.flatMap (perSeed env)

def idMat3 : Mat3 := ⟨1, 0, 0, 0, 1, 0, 0, 0, 1⟩

/-- Environment for the C3 counterexample: no initial directions,
`return_all` set, and the default `min_length=10` / `max_length=1000` of
`VerboseLocalTracking.__init__`. -/
noncomputable def envNoDir : TrackEnv :=
  ⟨idMat3, ⟨0, 0, 0⟩, fun _ => [], fun _ _ => ([], .TRACKPOINT), none, true, false, 10, 1000⟩

/-- Environment for the C3 witness: a constant two-point tracker run in
each direction, one initial direction, `return_all` unset. -/
noncomputable def envW3 : TrackEnv :=
  ⟨idMat3, ⟨0, 0, 0⟩, fun _ => [⟨1, 0, 0⟩],
   fun _ _ => ([⟨0, 0, 0⟩, ⟨1, 1, 1⟩], .ENDPOINT), none, false, false, 2, 1000⟩

/-- Environment for the C4 witness: the tracker echoes its seed and
first step, as the dipy tracker contract places the seed at index 0 of
each run. -/
noncomputable def envW4 : TrackEnv :=
  ⟨idMat3, ⟨0, 0, 0⟩, fun _ => [], fun p d => ([p, d], .ENDPOINT), none, false, false, 2, 1000⟩

noncomputable instance : DecidableEq Vec3 := fun _ _ => Classical.dec _

/-- A bundle definition generated by `BundleDict.gen` under "afq": the
python dict with keys 'include', 'exclude', 'start', 'end',
'cross_midline', optionally 'prob_map', plus the 'resampled' flag added
by `resample_roi` (key absent = `false`). `include` and `end` are Lean
keywords, hence `roi_include` / `end_`. `T` is the abstract type of
template images (all truthy objects). -/
structure BundleDef (T : Type) where
  roi_include : List T
  roi_exclude : List T
  start : Option T
  end_ : Option T
  cross_midline : Bool
  prob_map : Option T
  resampled : Bool

/-- A value stored in `BundleDict._dict`: "afq" stores generated
definition dicts, "reco*" stores raw template objects. -/
inductive BDItem (T : Type)
  | def_ (d : BundleDef T)
  | raw (t : T)

/-- Association-list lookup, modelling python dict access (keys are kept
unique by `dictInsert`). -/
def alookup {T : Type} (l : List (String × T)) (k : String) : Option T :=
  (l.find? fun p => p.1 == k).map fun p => p.2

/-- `d[key] = v` on a python dict: replace in place when the key exists,
append otherwise (insertion order preserved). -/
def dictInsert {T : Type} (l : List (String × T)) (k : String) (v : T) :
    List (String × T) :=
  if (alookup l k).isSome then l.map fun p => if p.1 = k then (k, v) else p
  else l ++ [(k, v)]

/-- `del d[key]` on a python dict (keys unique, so the filter removes
exactly the one binding). -/
def dictErase {T : Type} (l : List (String × T)) (k : String) : List (String × T) :=
  l.filter fun p => p.1 != k

/-- The external collaborators of `BundleDict`: the template mappings
returned by the `AFQ.data` fetchers, the `read_resample_roi` transform
`rroi`, and the truthiness of `resample_to` (`read_mni_template`, the
default target, is itself external and folded into that flag). -/
structure BDEnv (T : Type) where
  afq_templates : String → Option T
  callosal_templates : String → Option T
  endpoint_templates : List String → String → Option T
  reco16 : String → Option T
  reco80 : String → Option T
  rroi : T → T
  resample_to : Bool

/-- The mutable state of a `BundleDict`; `loads` is a ghost counter of
successful `load_templates` runs used to state "templates are loaded at
most once over the dictionary's lifetime". -/
structure BDState (T : Type) where
  seg_algo : String
  dict : List (String × BDItem T)
  bundle_names : List String
  templates_loaded : Bool
  templates : String → Option T
  loads : ℕ

/-- Pointwise update of a template mapping (`self.templates[k] = v`). -/
def mapUpdate {T : Type} (f : String → Option T) (k : String) (v : Option T) :
    String → Option T :=
  fun k2 => if k2 = k then v else f k2

/-- `BundleDict.load_templates`: under "afq" fetch the AFQ templates,
duplicate the SLF/SLFt ROIs under the ARC names, and merge in the
callosal and endpoint templates (`{**a, **b, **c}`: later dicts win);
under "reco*" fetch the 16- or 80-bundle HCP atlas; any other
`seg_algo` raises ValueError (before `templates_loaded` is set). -/
def load_templates {T : Type} (env : BDEnv T) (st : BDState T) :
    Except String (BDState T) :=
  if st.seg_algo = "afq" then
    let t0 := env.afq_templates
    let t1 := mapUpdate t0 "ARC_roi1_L" (t0 "SLF_roi1_L")
    let t2 := mapUpdate t1 "ARC_roi1_R" (t1 "SLF_roi1_R")
    let t3 := mapUpdate t2 "ARC_roi2_L" (t2 "SLFt_roi2_L")
    let t4 := mapUpdate t3 "ARC_roi2_R" (t3 "SLFt_roi2_R")
    let merged : String → Option T := fun k =>
      ((env.endpoint_templates st.bundle_names k).orElse fun _ =>
        env.callosal_templates k).orElse fun _ => t4 k
    .ok { st with templates := merged, templates_loaded := true, loads := st.loads + 1 }
  else if st.seg_algo.startsWith "reco" then
    .ok { st with
      templates := if st.seg_algo.endsWith "80" then env.reco80 else env.reco16,
      templates_loaded := true, loads := st.loads + 1 }
  else .error ("Input: " ++ st.seg_algo ++ " is not a valid input seg_algo")

def CALLOSUM_BUNDLES : List String :=
  ["AntFrontal", "Motor", "Occipital", "Orbital", "PostParietal",
   "SupFrontal", "SupParietal", "Temporal"]

/-- The waypoint ROI names computed at the top of the "afq" branch of
`BundleDict.gen` (`name = bundle_name[:-2]`, `hemi = bundle_name[-2:]`). -/
def roiNames (bundle_name : String) : String × String :=
  if bundle_name ∈ CALLOSUM_BUNDLES then ("L_" ++ bundle_name, "R_" ++ bundle_name)
  else if bundle_name = "FA" ∨ bundle_name = "FP" then
    (bundle_name ++ "_L", bundle_name ++ "_R")
  else
    (bundle_name.dropRight 2 ++ "_roi1" ++ bundle_name.takeRight 2,
     bundle_name.dropRight 2 ++ "_roi2" ++ bundle_name.takeRight 2)

/-- The definition dict built by the "afq" branch of `BundleDict.gen`
once both waypoint ROIs are present (`t1`, `t2` their values): include
ROIs (waypoints, optional roi3, mid-sagittal plane for callosal/FA/FP),
the SLFt exclusion for SLF, the probability map, and the endpoint
templates. The final conditional faithfully reproduces the code, which
assigns the `bundle_name + "_end"` template to the `start` variable
(the `end` entry it stores is always None). -/
def genAfqDef {T : Type} (templates : String → Option T) (bundle_name : String)
    (t1 t2 : T) : BundleDef T :=
  let nm := bundle_name.dropRight 2
  let hemi := bundle_name.takeRight 2
  let isCal := bundle_name ∈ CALLOSUM_BUNDLES ∨ bundle_name = "FA" ∨ bundle_name = "FP"
  let include2 :=
    ([t1, t2] ++ (templates (nm ++ "_roi3" ++ hemi)).toList)
      ++ (if isCal then (templates "Callosum_midsag").toList else [])
  let exclude0 := if nm = "SLF" then (templates ("SLFt_roi2" ++ hemi)).toList else []
  let start1 := if (templates (bundle_name ++ "_start")).isSome
    then templates (bundle_name ++ "_start") else none
  let start2 := if (templates (bundle_name ++ "_end")).isSome
    then templates (bundle_name ++ "_end") else start1
  ⟨include2, exclude0, start2, none, isCal, templates (bundle_name ++ "_prob_map"), false⟩

/-- `resample_roi` applied to one stored definition (`read_resample_roi`
abstracted as `rroi`): include ROIs always, exclude ROIs only when the
list is truthy (non-empty), start/end when present, then set the
`resampled` flag; definitions already marked resampled are skipped. The
`self.resample_to` truthiness test sits in the callers below. -/
def resampleDef {T : Type} (rroi : T → T) (d : BundleDef T) : BundleDef T :=
  if d.resampled then d
  else
    ⟨d.roi_include.map rroi,
     if d.roi_exclude.isEmpty then d.roi_exclude else d.roi_exclude.map rroi,
     d.start.map rroi, d.end_.map rroi, d.cross_midline, d.prob_map, true⟩

/-- `resample_roi(key)` on a `BundleDict` state ("afq" stores definition
dicts; raw items and missing keys are untouched — the method is only
invoked on keys just stored). -/
def bdResample {T : Type} (env : BDEnv T) (st : BDState T) (key : String) : BDState T :=
  if env.resample_to then
    match alookup st.dict key with
    | some (BDItem.def_ d) =>
      { st with dict := dictInsert st.dict key (BDItem.def_ (resampleDef env.rroi d)) }
    | _ => st
  else st

/-- The body of `BundleDict.gen` after its load step: build and store
the definition (see `gen` below for the load step). -/
def genBody {T : Type} (env : BDEnv T) (st : BDState T) (bundle_name : String) :
    Except String Unit × BDState T :=
  if st.seg_algo = "afq" then
      match st.templates (roiNames bundle_name).1, st.templates (roiNames bundle_name).2 with
      | some t1, some t2 =>
        let st1 := { st with
          dict := dictInsert st.dict bundle_name
            (BDItem.def_ (genAfqDef st.templates bundle_name t1 t2)) }
        (.ok (), bdResample env st1 bundle_name)
      | _, _ => (.error (bundle_name ++ " is not in AFQ templates"), st)
    else if st.seg_algo.startsWith "reco" then
      match st.templates bundle_name with
      | some t => (.ok (), { st with dict := dictInsert st.dict bundle_name (BDItem.raw t) })
      | none => (.error "KeyError", st)
    else (.ok (), st)

/-- `BundleDict.gen(bundle_name)`: load templates if not yet loaded,
then build and store the definition. The `Except` component carries a
raised ValueError/KeyError; the state component carries the mutations
made before the raise. -/
def gen {T : Type} (env : BDEnv T) (st0 : BDState T) (bundle_name : String) :
    Except String Unit × BDState T :=
  match (if st0.templates_loaded then Except.ok st0 else load_templates env st0) with
  | .error e => (.error e, st0)
  | .ok st => genBody env st bundle_name

/-- `BundleDict.__getitem__`: generate (and store) on first access of a
key, then read the stored entry. -/
def bdGetitem {T : Type} (env : BDEnv T) (st : BDState T) (key : String) :
    Except String (BDItem T) × BDState T :=
  match alookup st.dict key with
  | some v => (.ok v, st)
  | none =>
    match gen env st key with
    | (.ok _, st1) =>
      match alookup st1.dict key with
      | some v => (.ok v, st1)
      | none => (.error "KeyError", st1)
    | (.error e, st1) => (.error e, st1)

/-- `BundleDict.__init__` from a list of bundle names: lower-case the
algorithm, record the names, start with an empty dictionary and no
templates loaded, then apply the FP/FA co-location removals ("afq",
`list.remove` drops the first occurrence). A dict-valued `bundle_info`
instead delegates to `__setitem__` (embedded as `gbdSetitem` below). -/
def initFromList {T : Type} (seg_algo : String) (names : List String) : BDState T :=
  let sa := seg_algo.toLower
  let names3 := if sa = "afq" then
      (let a := if "FP" ∈ names ∧ "Occipital" ∈ names then names.erase "FP" else names
       let b := if "FA" ∈ a ∧ "Orbital" ∈ a then a.erase "FA" else a
       if "FA" ∈ b ∧ "AntFrontal" ∈ b then b.erase "FA" else b)
    else names
  ⟨sa, [], names3, false, fun _ => none, 0⟩

/-- A sequence of `__getitem__` calls, threading the state. -/
def runGets {T : Type} (env : BDEnv T) : BDState T → List String → BDState T
  | st, [] => st
  | st, k :: ks => runGets env (bdGetitem env st k).2 ks

/-- The state after `gen`'s initial load step: unchanged when templates
are already loaded, otherwise the result of `load_templates` (which
always succeeds under "afq"). -/
def loadedState {T : Type} (env : BDEnv T) (st : BDState T) : BDState T :=
  if st.templates_loaded then st
  else match load_templates env st with
    | .ok s => s
    | .error _ => st

/-- The state of a `_GeneratedBundleDict`: the internal dictionary and
`bundle_names` (`__len__` returns the latter's length). -/
structure GBDState (T : Type) where
  dict : List (String × BundleDef T)
  bundle_names : List String

/-- `_GeneratedBundleDict.resample_roi` (with the `resample_to`
truthiness and `read_resample_roi` abstracted as arguments). -/
def gbdResample {T : Type} (rroi : T → T) (resample_to : Bool) (st : GBDState T)
    (key : String) : GBDState T :=
  if resample_to then
    match alookup st.dict key with
    | some d => ⟨dictInsert st.dict key (resampleDef rroi d), st.bundle_names⟩
    | none => st
  else st

/-- `_GeneratedBundleDict.__setitem__`: store the item, append the key
to `bundle_names` unconditionally, then resample that key. -/
def gbdSetitem {T : Type} (rroi : T → T) (resample_to : Bool) (st : GBDState T)
    (k : String) (v : BundleDef T) : GBDState T :=
  gbdResample rroi resample_to ⟨dictInsert st.dict k v, st.bundle_names ++ [k]⟩ k

/-- `_GeneratedBundleDict.__delitem__`, with its KeyError and the two
defensive RuntimeErrors; the returned state carries the mutations made
before a raise. -/
def gbdDelitem {T : Type} (st : GBDState T) (k : String) :
    Except String Unit × GBDState T :=
  if (alookup st.dict k).isNone ∧ k ∉ st.bundle_names then
    (.error (k ++ " not found"), st)
  else
    match alookup st.dict k with
    | some _ =>
      let st1 : GBDState T := ⟨dictErase st.dict k, st.bundle_names⟩
      if k ∈ st1.bundle_names then (.ok (), ⟨st1.dict, st1.bundle_names.erase k⟩)
      else (.error "RuntimeError: found in internal dictionary only", st1)
    | none => (.error "RuntimeError: found in bundle_names only", st)

/-- The synchronization invariant of claim C10: `bundle_names` lists
exactly the internal dictionary's keys, without duplicates. -/
def gbdInv {T : Type} (st : GBDState T) : Prop :=
  st.bundle_names.Nodup ∧ (st.dict.map Prod.fst).Nodup
    ∧ ∀ k, k ∈ st.bundle_names ↔ k ∈ st.dict.map Prod.fst

def defU : BundleDef Unit := ⟨[], [], none, none, false, none, false⟩

/-- Concrete `_GeneratedBundleDict` state for the C10 counterexample:
one entry, names and keys in sync. -/
def stC10 : GBDState Unit := ⟨[("a", defU)], ["a"]⟩

/-- Templates for the C6 exhibit: bundle `CST_L` with both waypoint ROIs
and both endpoint (`_start` / `_end`) templates present; `T = ℕ` tags
the template objects 1-4. -/
def tmplC6 : String → Option ℕ := fun k =>
  if k = "CST_roi1_L" then some 1
  else if k = "CST_roi2_L" then some 2
  else if k = "CST_L_start" then some 3
  else if k = "CST_L_end" then some 4
  else none

/-- An environment whose external fetchers are all empty and that does
no resampling (used where only already-loaded templates matter). -/
def envC6 : BDEnv ℕ :=
  ⟨fun _ => none, fun _ => none, fun _ _ => none, fun _ => none, fun _ => none,
   id, false⟩

/-- Concrete state for the C6 exhibit: "afq", templates loaded. -/
def stC6 : BDState ℕ := ⟨"afq", [], ["CST_L"], true, tmplC6, 1⟩

/-- Concrete state for the C5 witness: one stored entry. -/
def stC5 : BDState ℕ := ⟨"afq", [("CST_L", BDItem.raw 7)], ["CST_L"], false, fun _ => none, 0⟩

/-- Concrete state for the C7 witness: "afq", templates loaded but
containing no ROI at all. -/
def stC7 : BDState ℕ := ⟨"afq", [], [], true, fun _ => none, 1⟩

/-- The positivity mask of `tensor_odf`:
`np.where((evals[..., 0] > 0) & (evals[..., 1] > 0) & (evals[..., 2] > 0))`.
A voxel of the (flattened) grid is its eigenvalue triple and its 3×3
eigenvector matrix; the 4-D spatial shape only provides indexing, so
the grid is modelled as a flat voxel list and `odf[mask] = proj_norm.T`
becomes the scatter below. -/
noncomputable def maskPred (v : Vec3 × Mat3) : Bool :=
  decide (0 < v.1.x ∧ 0 < v.1.y ∧ 0 < v.1.z)

/-- `evals[mask]` / `evecs[mask]` as the filtered voxel list. -/
noncomputable def maskFilter (voxels : List (Vec3 × Mat3)) : List (Vec3 × Mat3) :=
  voxels.filter maskPred

/-- One row of `proj_norm` (one sphere vertex `u`): for each masked
voxel, `np.dot(u, evecs)` divided componentwise by `np.sqrt(evals)`,
then `in_place_norm` (the Euclidean norm) over the last axis. -/
noncomputable def odfRow (masked : List (Vec3 × Mat3)) (u : Vec3) : List ℝ :=
  masked.map fun ve =>
    Real.sqrt (((vecMat u ve.2).x / Real.sqrt ve.1.x) ^ 2
      + ((vecMat u ve.2).y / Real.sqrt ve.1.y) ^ 2
      + ((vecMat u ve.2).z / Real.sqrt ve.1.z) ^ 2)

/-- Numpy slice assignment `arr[start:end] = vals` where `vals` are the
per-row values of the slice; `end` is already clamped by the code and
`start` may exceed the length (empty slice, no-op). -/
def setRows {α : Type} (arr : List α) (s e : ℕ) (rowf : ℕ → α) : List α :=
  arr.take s ++ (List.range' s (e - s)).map rowf ++ arr.drop e

/-- The batch loop of `tensor_odf`: for `i in range(n)`, fill rows
`i*bs` up to `min((i+1)*bs, V)` of the array. -/
def runBatches {α : Type} (rowf : ℕ → α) (V bs n : ℕ) (arr : List α) : List α :=
  (List.range n).foldl (fun a i => setRows a (i * bs) (min ((i + 1) * bs) V) rowf) arr

/-- `odf[mask] = proj_norm.T` over the flattened voxel grid: masked
voxels consume the transposed columns in order, unmasked voxels keep
their zero row from `np.zeros(evals.shape[:3] + (num_vertices,))`. -/
noncomputable def scatterRows (V : ℕ) : List (Vec3 × Mat3) → List (List ℝ) → List (List ℝ)
  | [], _ => []
  | v :: rest, cols =>
    if maskPred v then (cols.headD (List.replicate V 0)) :: scatterRows V rest cols.tail
    else (List.replicate V 0) :: scatterRows V rest cols

/-- The post-processing after the batch loop: `proj_norm **= -3`, then
`proj_norm /= 4 * np.pi * np.sqrt(np.prod(evals[mask], -1))` (per
masked-voxel column), then the transpose-scatter into the output. -/
noncomputable def odfPost (voxels : List (Vec3 × Mat3)) (V : ℕ)
    (arr : List (List ℝ)) : List (List ℝ) :=
  let masked := maskFilter voxels
  let arr1 := arr.map fun row => row.map fun x => (x ^ 3)⁻¹
  let arr2 := arr1.map fun row =>
    row.zipWith (fun x ve => x / (4 * Real.pi * Real.sqrt (ve.1.x * ve.1.y * ve.1.z))) masked
  scatterRows V voxels arr2.transpose

/-- `tensor_odf(evals, evecs, sphere, num_batches)` over the flattened
voxel grid. `num_batches = -1` means one batch per sphere vertex; with
an empty sphere that makes `batch_size = math.ceil(0 / 0)` raise
ZeroDivisionError (python float division), modelled as `none`. For
other non-positive `num_batches` the `range` is empty and the zero
array goes straight to post-processing, exactly as in numpy (`bs` is
then unused; `max nbn 1` only avoids the model's Nat division by zero
in that dead case). -/
noncomputable def tensor_odf (voxels : List (Vec3 × Mat3)) (vertices : List Vec3)
    (num_batches : ℤ) : Option (List (List ℝ)) :=
  let V := vertices.length
  let nb : ℤ := if num_batches = -1 then (V : ℤ) else num_batches
  if nb = 0 then none
  else
    let nbn := nb.toNat
    let bs := (V + nbn - 1) / max nbn 1
    let masked := maskFilter voxels
    let rowf : ℕ → List ℝ := fun a => odfRow masked (vertices.getD a ⟨0, 0, 0⟩)
    let arr0 : List (List ℝ) := List.replicate V (List.replicate masked.length 0)
    some (odfPost voxels V (runBatches rowf V bs nbn arr0))

/- THEOREMS -/

/-- C9: for every bundle containing exactly one streamline,
`gaussian_weights` returns the single-element array `[1]` when
`return_mahalnobis` is `False` and `[NaN]` when it is `True`, regardless
of the streamline's length or contents and of the statistic. -/
theorem C9_single_streamline (sl : List Vec3) (stat : List ℝ → ℝ) :
    gaussian_weights [sl] stat true = [[EF.nan]]
      ∧ gaussian_weights [sl] stat false = [[EF.fin 1]] := by
  constructor <;> simp [gaussian_weights]

theorem range_map_getD {α : Type} (n : ℕ) (f : ℕ → α) (d : α) (s : ℕ) (h : s < n) :
    ((List.range n).map f).getD s d = f s := by
  rw [List.getD_eq_getElem?_getD]
  simp [List.getElem?_map, List.getElem?_range, h]

theorem EF.add_fin (a b : ℝ) : EF.add (.fin a) (.fin b) = .fin (a + b) := rfl

theorem efSum_fin_map {α : Type} (l : List α) (g : α → ℝ) :
    efSum (l.map fun x => EF.fin (g x)) = EF.fin ((l.map g).sum) := by
  induction l with
  | nil => simp [efSum]
  | cons a t ih =>
      simp only [List.map_cons, efSum, List.foldr_cons, List.sum_cons]
      have : (t.map fun x => EF.fin (g x)).foldr EF.add (.fin 0) = EF.fin ((t.map g).sum) := ih
      rw [this, EF.add_fin]

theorem mahalMatrix_entry (stat : List ℝ → ℝ) (bundle : List (List Vec3)) (t i : ℕ)
    (ht : t < bundle.length) (hi : i < (bundle.headD []).length) :
    outEntry (mahalMatrix stat bundle) t i = mahalEntry stat bundle t i := by
  unfold outEntry mahalMatrix
  rw [range_map_getD _ _ _ _ ht, range_map_getD _ _ _ _ hi]

theorem gw_mahal_entry (bundle : List (List Vec3)) (stat : List ℝ → ℝ) (s i : ℕ)
    (hne : bundle.length ≠ 1) (hs : s < bundle.length) (hi : i < (bundle.headD []).length) :
    outEntry (gaussian_weights bundle stat true) s i = mahalEntry stat bundle s i := by
  unfold gaussian_weights
  rw [if_neg hne]
  exact mahalMatrix_entry stat bundle s i hs hi

theorem gw_weights_entry (bundle : List (List Vec3)) (stat : List ℝ → ℝ) (s i : ℕ)
    (hne : bundle.length ≠ 1) (hs : s < bundle.length) (hi : i < (bundle.headD []).length) :
    outEntry (gaussian_weights bundle stat false) s i
      = EF.div (EF.recip (outEntry (mahalMatrix stat bundle) s i))
          (efSum ((List.range bundle.length).map fun t =>
            EF.recip (outEntry (mahalMatrix stat bundle) t i))) := by
  unfold gaussian_weights
  rw [if_neg hne]
  show outEntry (normalizeWeights (mahalMatrix stat bundle) bundle.length
    (bundle.headD []).length) s i = _
  unfold outEntry normalizeWeights
  rw [range_map_getD _ _ _ _ hs, range_map_getD _ _ _ _ hi]

/-- C1 (amended): what `gaussian_weights` returns in Mahalanobis mode at
a node whose upper-triangularised covariance is invertible is
`sqrt(d^T * triu(Sigma)^{-1} * d)` — the quadratic form taken with the
inverse of `np.triu` of the covariance, not of the covariance itself. -/
theorem C1_triu_mahalanobis (bundle : List (List Vec3)) (stat : List ℝ → ℝ)
    (nPoints s i : ℕ)
    (hlen : 2 ≤ bundle.length) (hrect : ∀ sl ∈ bundle, sl.length = nPoints)
    (hs : s < bundle.length) (hi : i < (bundle.headD []).length)
    (hdet : det3 (triu3 (covMat (nodeCoords bundle i))) ≠ 0)
    (hq : 0 ≤ quadForm (diffAt stat bundle s i) (inv3 (triu3 (covMat (nodeCoords bundle i))))) :
    outEntry (gaussian_weights bundle stat true) s i
      = EF.fin (Real.sqrt
          (quadForm (diffAt stat bundle s i) (inv3 (triu3 (covMat (nodeCoords bundle i)))))) := by
  have hne : bundle.length ≠ 1 := by omega
  rw [gw_mahal_entry bundle stat s i hne hs hi]
  unfold mahalEntry
  rw [if_pos hdet, if_pos hq]

/-- C1 witness: the amended theorem applied to the concrete two-streamline
bundle `slsW`, all hypotheses discharged by computation. -/
theorem C1_witness :
    (2 ≤ slsW.length)
      ∧ outEntry (gaussian_weights slsW npMean true) 0 0
        = EF.fin (Real.sqrt
            (quadForm (diffAt npMean slsW 0 0) (inv3 (triu3 (covMat (nodeCoords slsW 0)))))) :=
  ⟨by simp [slsW],
   C1_triu_mahalanobis slsW npMean 1 0 0 (by simp [slsW])
     (by intro sl hsl; simp [slsW] at hsl; rcases hsl with h | h <;> simp [h])
     (by simp [slsW]) (by simp [slsW])
     (by norm_num [nodeCoords, slsW, covMat, covEntry, npMean, triu3, det3])
     (by norm_num [nodeCoords, slsW, covMat, covEntry, npMean, triu3, det3, inv3,
        diffAt, statV, Vec3.sub, quadForm, vecMat, Vec3.dot])⟩

/-- C1 counterexample: on the concrete full-rank bundle `slsC1` the value
returned by `gaussian_weights` in Mahalanobis mode (namely `sqrt(4/3)`,
computed with `triu` of the covariance) differs from the claim's
`sqrt(d^T * Sigma^{-1} * d)` (namely `sqrt(3)`). -/
theorem C1_cex :
    outEntry (gaussian_weights slsC1 npMean true) 0 0
      ≠ EF.fin (claimMahalanobis (nodeCoords slsC1 0) (diffAt npMean slsC1 0 0)) := by
  have hnode : nodeCoords slsC1 0 = [⟨1, 1, 0⟩, ⟨-1, 1, 0⟩, ⟨1, 0, 1⟩, ⟨-1, -2, -1⟩] := by
    simp [nodeCoords, slsC1]
  have hcov : covMat (nodeCoords slsC1 0)
      = ⟨1, 1/2, 1/2, 1/2, 3/2, 1/2, 1/2, 1/2, 1/2⟩ := by
    rw [hnode]
    simp only [covMat, List.map_cons, List.map_nil]
    norm_num [covEntry, npMean]
  have hdiff : diffAt npMean slsC1 0 0 = ⟨-1, -1, 0⟩ := by
    unfold diffAt
    rw [hnode]
    norm_num [statV, npMean, slsC1, Vec3.sub]
  have h1 : outEntry (gaussian_weights slsC1 npMean true) 0 0 = mahalEntry npMean slsC1 0 0 :=
    gw_mahal_entry slsC1 npMean 0 0 (by simp [slsC1]) (by simp [slsC1]) (by simp [slsC1])
  have htriu : triu3 (covMat (nodeCoords slsC1 0)) = ⟨1, 1/2, 1/2, 0, 3/2, 1/2, 0, 0, 1/2⟩ := by
    rw [hcov]; rfl
  have hinvT : inv3 (⟨1, 1/2, 1/2, 0, 3/2, 1/2, 0, 0, 1/2⟩ : Mat3)
      = ⟨1, -(1/3), -(2/3), 0, 2/3, -(2/3), 0, 0, 2⟩ := by
    simp only [inv3, det3]
    norm_num
  have hq : quadForm (diffAt npMean slsC1 0 0) (inv3 (triu3 (covMat (nodeCoords slsC1 0)))) = 4/3 := by
    rw [hdiff, htriu, hinvT]
    norm_num [quadForm, vecMat, Vec3.dot]
  have hL : outEntry (gaussian_weights slsC1 npMean true) 0 0 = EF.fin (Real.sqrt (4/3)) := by
    rw [h1]
    unfold mahalEntry
    rw [if_pos, if_pos]
    · rw [hq]
    · rw [hq]; norm_num
    · rw [htriu]; norm_num [det3]
  have hinvC : inv3 (⟨1, 1/2, 1/2, 1/2, 3/2, 1/2, 1/2, 1/2, 1/2⟩ : Mat3)
      = ⟨2, 0, -2, 0, 1, -1, -2, -1, 5⟩ := by
    simp only [inv3, det3]
    norm_num
  have hR : claimMahalanobis (nodeCoords slsC1 0) (diffAt npMean slsC1 0 0) = Real.sqrt 3 := by
    unfold claimMahalanobis
    rw [hdiff, hcov, hinvC]
    norm_num [quadForm, vecMat, Vec3.dot]
  rw [hL, hR]
  intro h
  have h2 : Real.sqrt (4/3) = Real.sqrt 3 := by injection h
  have h3 : Real.sqrt (4/3) < Real.sqrt 3 := Real.sqrt_lt_sqrt (by norm_num) (by norm_num)
  exact absurd h2 (ne_of_lt h3)

theorem EF.recip_fin (q : ℝ) : EF.recip (.fin q) = if q = 0 then .pinf else .fin q⁻¹ := rfl

theorem EF.div_fin (a b : ℝ) :
    EF.div (.fin a) (.fin b) = if b = 0 then (if a = 0 then .nan else .pinf) else .fin (a / b) := rfl

/-- C2 (amended): at a node whose upper-triangularised covariance is
invertible and where every streamline's Mahalanobis quadratic form is
positive, each weight is the normalized inverse of the streamline's
Mahalanobis distance and the weights across streamlines sum to 1.  (The
claim's extension to nodes where all streamlines share a coordinate is
refuted by `C2_cex`: there the column becomes `1/0 = inf` and then
`inf/inf = NaN`.) -/
theorem C2_normalized_weights (bundle : List (List Vec3)) (stat : List ℝ → ℝ)
    (nPoints s i : ℕ)
    (hlen : 2 ≤ bundle.length) (hrect : ∀ sl ∈ bundle, sl.length = nPoints)
    (hs : s < bundle.length) (hi : i < (bundle.headD []).length)
    (hdet : det3 (triu3 (covMat (nodeCoords bundle i))) ≠ 0)
    (hq : ∀ t, t < bundle.length →
      0 < quadForm (diffAt stat bundle t i) (inv3 (triu3 (covMat (nodeCoords bundle i))))) :
    outEntry (gaussian_weights bundle stat false) s i
      = EF.fin ((Real.sqrt (quadForm (diffAt stat bundle s i)
            (inv3 (triu3 (covMat (nodeCoords bundle i))))))⁻¹
          / (((List.range bundle.length).map fun t =>
              (Real.sqrt (quadForm (diffAt stat bundle t i)
                (inv3 (triu3 (covMat (nodeCoords bundle i))))))⁻¹).sum))
      ∧ efSum ((List.range bundle.length).map fun t =>
          outEntry (gaussian_weights bundle stat false) t i) = EF.fin 1 := by
  have hne : bundle.length ≠ 1 := by omega
  have hDpos : ∀ t, t < bundle.length →
      0 < Real.sqrt (quadForm (diffAt stat bundle t i)
        (inv3 (triu3 (covMat (nodeCoords bundle i))))) :=
    fun t ht => Real.sqrt_pos.mpr (hq t ht)
  have hrecip : ∀ t, t < bundle.length →
      EF.recip (outEntry (mahalMatrix stat bundle) t i)
        = EF.fin ((Real.sqrt (quadForm (diffAt stat bundle t i)
            (inv3 (triu3 (covMat (nodeCoords bundle i))))))⁻¹) := by
    intro t ht
    rw [mahalMatrix_entry stat bundle t i ht hi]
    unfold mahalEntry
    rw [if_pos hdet, if_pos (le_of_lt (hq t ht)), EF.recip_fin,
      if_neg (ne_of_gt (hDpos t ht))]
  have hcolsum : efSum ((List.range bundle.length).map fun t =>
      EF.recip (outEntry (mahalMatrix stat bundle) t i))
        = EF.fin (((List.range bundle.length).map fun t =>
            (Real.sqrt (quadForm (diffAt stat bundle t i)
              (inv3 (triu3 (covMat (nodeCoords bundle i))))))⁻¹).sum) := by
    rw [List.map_congr_left (fun t ht => hrecip t (List.mem_range.mp ht))]
    exact efSum_fin_map _ _
  have hSpos : 0 < ((List.range bundle.length).map fun t =>
      (Real.sqrt (quadForm (diffAt stat bundle t i)
        (inv3 (triu3 (covMat (nodeCoords bundle i))))))⁻¹).sum := by
    apply List.sum_pos
    · intro x hx
      obtain ⟨t, ht, rfl⟩ := List.mem_map.mp hx
      exact inv_pos.mpr (hDpos t (List.mem_range.mp ht))
    · simp only [ne_eq, List.map_eq_nil_iff, List.range_eq_nil]
      omega
  have hout : ∀ t, t < bundle.length →
      outEntry (gaussian_weights bundle stat false) t i
        = EF.fin ((Real.sqrt (quadForm (diffAt stat bundle t i)
              (inv3 (triu3 (covMat (nodeCoords bundle i))))))⁻¹
            / (((List.range bundle.length).map fun u =>
                (Real.sqrt (quadForm (diffAt stat bundle u i)
                  (inv3 (triu3 (covMat (nodeCoords bundle i))))))⁻¹).sum)) := by
    intro t ht
    rw [gw_weights_entry bundle stat t i hne ht hi, hrecip t ht, hcolsum, EF.div_fin,
      if_neg (ne_of_gt hSpos)]
  refine ⟨hout s hs, ?_⟩
  rw [List.map_congr_left (fun t ht => hout t (List.mem_range.mp ht))]
  rw [efSum_fin_map]
  congr 1
  simp only [div_eq_mul_inv]
  rw [List.sum_map_mul_right]
  exact mul_inv_cancel₀ (ne_of_gt hSpos)

/-- C2 witness: the amended theorem applied to the concrete bundle
`slsW`, all hypotheses discharged by computation. -/
theorem C2_witness :
    (det3 (triu3 (covMat (nodeCoords slsW 0))) ≠ 0)
      ∧ (outEntry (gaussian_weights slsW npMean false) 0 0
          = EF.fin ((Real.sqrt (quadForm (diffAt npMean slsW 0 0)
                (inv3 (triu3 (covMat (nodeCoords slsW 0))))))⁻¹
              / (((List.range slsW.length).map fun t =>
                  (Real.sqrt (quadForm (diffAt npMean slsW t 0)
                    (inv3 (triu3 (covMat (nodeCoords slsW 0))))))⁻¹).sum))
          ∧ efSum ((List.range slsW.length).map fun t =>
              outEntry (gaussian_weights slsW npMean false) t 0) = EF.fin 1) :=
  ⟨by norm_num [nodeCoords, slsW, covMat, covEntry, npMean, triu3, det3],
   C2_normalized_weights slsW npMean 1 0 0 (by simp [slsW])
     (by intro sl hsl; simp [slsW] at hsl; rcases hsl with h | h <;> simp [h])
     (by simp [slsW]) (by simp [slsW])
     (by norm_num [nodeCoords, slsW, covMat, covEntry, npMean, triu3, det3])
     (by
        intro t ht
        simp only [slsW, List.length_cons, List.length_nil] at ht
        interval_cases t <;>
          norm_num [nodeCoords, slsW, covMat, covEntry, npMean, triu3, det3, inv3,
            diffAt, statV, Vec3.sub, quadForm, vecMat, Vec3.dot])⟩

/-- C2 counterexample: on the concrete bundle `slsSame`, whose two
streamlines share their node coordinate, `gaussian_weights` returns NaN
for every weight at that node (the column of zeros becomes `1/0 = inf`
and then `inf/inf = NaN`), so the weights are not normalized inverses
and do not sum to 1. -/
theorem C2_cex :
    gaussian_weights slsSame npMean false = [[EF.nan], [EF.nan]]
      ∧ efSum ((List.range slsSame.length).map fun t =>
          outEntry (gaussian_weights slsSame npMean false) t 0) ≠ EF.fin 1 := by
  have hent : ∀ t, mahalEntry npMean slsSame t 0 = EF.fin 0 := by
    intro t
    unfold mahalEntry
    rw [if_neg]
    intro hcontra
    apply hcontra
    norm_num [nodeCoords, slsSame, covMat, covEntry, npMean, triu3, det3]
  have hW : mahalMatrix npMean slsSame = [[EF.fin 0], [EF.fin 0]] := by
    unfold mahalMatrix
    rw [show slsSame.length = 2 by simp [slsSame],
      show (slsSame.headD []).length = 1 by simp [slsSame]]
    simp [List.range_succ, hent]
  have hmain : gaussian_weights slsSame npMean false = [[EF.nan], [EF.nan]] := by
    unfold gaussian_weights
    rw [if_neg (by simp [slsSame])]
    show normalizeWeights (mahalMatrix npMean slsSame) slsSame.length
      (slsSame.headD []).length = _
    rw [hW]
    simp [slsSame, normalizeWeights, List.range_succ, efSum, EF.recip, EF.add, EF.div]
  refine ⟨hmain, ?_⟩
  rw [hmain]
  simp [slsSame, List.range_succ, outEntry, efSum, EF.add]

/-- C3 (amended): every item yielded by the per-seed body either passed
the explicit length filter (`min_length <= L <= max_length`) or is a
bare-seed yield of length 1, which is emitted only when `return_all` is
set and bypasses the filter. -/
theorem C3_length_filter (env : TrackEnv) (s0 : Vec3) (it : List Vec3 × Option Vec3)
    (hit : it ∈ perSeed env s0) :
    (env.min_length ≤ it.1.length ∧ it.1.length ≤ env.max_length)
      ∨ (it.1.length = 1 ∧ env.return_all = true) := by
  unfold perSeed at hit
  rw [List.mem_append] at hit
  rcases hit with h | h
  · right
    split at h
    case isTrue hcond =>
      rw [Bool.and_eq_true] at hcond
      simp only [List.mem_singleton] at h
      subst h
      exact ⟨rfl, hcond.2⟩
    case isFalse => simp at h
  · left
    rw [List.mem_flatMap] at h
    obtain ⟨fs, _, hmem⟩ := h
    unfold processFirstStep at hmem
    split at hmem
    · split at hmem
      · unfold lengthFilterYield at hmem
        split at hmem
        case isTrue hlen =>
          simp only [List.mem_singleton] at hmem
          subst hmem
          exact hlen
        case isFalse => simp at hmem
      · simp at hmem
    · simp at hmem

/-- C3 witness: the amended theorem applied to the concrete environment
`envW3`, whose first-step loop yields a three-point streamline. -/
theorem C3_witness :
    (envW3.min_length ≤ ([⟨1, 1, 1⟩, ⟨0, 0, 0⟩, ⟨1, 1, 1⟩] : List Vec3).length
        ∧ ([⟨1, 1, 1⟩, ⟨0, 0, 0⟩, ⟨1, 1, 1⟩] : List Vec3).length ≤ envW3.max_length)
      ∨ (([⟨1, 1, 1⟩, ⟨0, 0, 0⟩, ⟨1, 1, 1⟩] : List Vec3).length = 1
        ∧ envW3.return_all = true) :=
  C3_length_filter envW3 ⟨0, 0, 0⟩ ([⟨1, 1, 1⟩, ⟨0, 0, 0⟩, ⟨1, 1, 1⟩], none)
    (by simp [perSeed, envW3, takeMaxCross, processFirstStep, statusOK,
      lengthFilterYield, stitch])

/-- C3 counterexample: with no initial direction and `return_all` set,
`_verbose_generate_tractogram` yields the bare seed — a streamline of
length 1, strictly below the `min_length` of 10, contradicting the
claim that every yield (including seed-only yields) satisfies
`min_length <= L`. -/
theorem C3_cex :
    ((generate_tractogram envNoDir [⟨0, 0, 0⟩]).map fun it => it.1.length) = [1]
      ∧ 1 < envNoDir.min_length := by
  constructor
  · simp [generate_tractogram, perSeed, envNoDir, takeMaxCross]
  · simp [envNoDir]

/-- C4: every item yielded by the first-step loop is the bidirectional
stitch of the two tracker runs — the backward prefix `B[1..stepsB-1]`
reversed, concatenated with the forward prefix `F[0..stepsF-1]`, with
the forward prefix alone when `stepsB = 1` — and under the tracker
contract (each run starts at the seed and contains it exactly once) the
seed appears exactly once in the yielded streamline. -/
theorem C4_stitch (env : TrackEnv) (s fs : Vec3) (F B : List Vec3)
    (stF stB : StreamStatus) (it : List Vec3 × Option Vec3)
    (hF : env.tracker s fs = (F, stF)) (hB : env.tracker s (Vec3.neg fs) = (B, stB))
    (hit : it ∈ processFirstStep env s fs)
    (hhead : B.head? = some s) (hcF : F.count s = 1) (hcB : B.count s = 1) :
    it.1 = (if B.length = 1 then F else (B.drop 1).reverse ++ F)
      ∧ it.1.count s = 1 := by
  unfold processFirstStep at hit
  rw [hF, hB] at hit
  split at hit
  · split at hit
    · unfold lengthFilterYield at hit
      split at hit
      · simp only [List.mem_singleton] at hit
        subst hit
        have hstitch : stitch F B = (if B.length = 1 then F else (B.drop 1).reverse ++ F) := rfl
        refine ⟨hstitch, ?_⟩
        show (stitch F B).count s = 1
        unfold stitch
        split
        · exact hcF
        · rw [List.count_append, List.count_reverse]
          cases B with
          | nil => simp at hhead
          | cons b t =>
            have hb : b = s := by simpa using hhead
            subst hb
            rw [List.count_cons_self] at hcB
            simp only [List.drop_succ_cons, List.drop_zero]
            omega
      · simp at hit
    · simp at hit
  · simp at hit

/-- C4 witness: the theorem applied to the concrete environment `envW4`,
seed `(5,6,7)` and first step `(1,0,0)`. -/
theorem C4_witness :
    (([Vec3.neg ⟨1, 0, 0⟩, ⟨5, 6, 7⟩, ⟨1, 0, 0⟩], (none : Option Vec3)).1
        = (if ([⟨5, 6, 7⟩, Vec3.neg ⟨1, 0, 0⟩] : List Vec3).length = 1
            then [⟨5, 6, 7⟩, ⟨1, 0, 0⟩]
            else (([⟨5, 6, 7⟩, Vec3.neg ⟨1, 0, 0⟩] : List Vec3).drop 1).reverse
              ++ [⟨5, 6, 7⟩, ⟨1, 0, 0⟩]))
      ∧ ([Vec3.neg ⟨1, 0, 0⟩, ⟨5, 6, 7⟩, ⟨1, 0, 0⟩] : List Vec3).count ⟨5, 6, 7⟩ = 1 :=
  C4_stitch envW4 ⟨5, 6, 7⟩ ⟨1, 0, 0⟩ [⟨5, 6, 7⟩, ⟨1, 0, 0⟩] [⟨5, 6, 7⟩, Vec3.neg ⟨1, 0, 0⟩]
    .ENDPOINT .ENDPOINT ([Vec3.neg ⟨1, 0, 0⟩, ⟨5, 6, 7⟩, ⟨1, 0, 0⟩], none)
    (by simp [envW4]) (by simp [envW4])
    (by simp [processFirstStep, envW4, statusOK, lengthFilterYield, stitch])
    (by simp)
    (by norm_num [List.count_cons, List.count_nil, beq_iff_eq, Vec3.mk.injEq])
    (by norm_num [List.count_cons, List.count_nil, beq_iff_eq, Vec3.mk.injEq, Vec3.neg])

theorem alookup_nil {T : Type} (k : String) : alookup ([] : List (String × T)) k = none := rfl

theorem alookup_cons {T : Type} (p : String × T) (t : List (String × T)) (k : String) :
    alookup (p :: t) k = if p.1 = k then some p.2 else alookup t k := by
  unfold alookup
  rcases eq_or_ne p.1 k with h | h
  · rw [List.find?_cons_of_pos _ (by simpa using h), if_pos h]
    rfl
  · rw [List.find?_cons_of_neg _ (by simpa using h), if_neg h]

theorem alookup_isSome_iff {T : Type} (l : List (String × T)) (k : String) :
    (alookup l k).isSome ↔ k ∈ l.map Prod.fst := by
  induction l with
  | nil => simp [alookup_nil]
  | cons p t ih =>
    rw [alookup_cons]
    rcases eq_or_ne p.1 k with h | h
    · simp [h]
    · simp only [if_neg h, List.map_cons, List.mem_cons, ih]
      constructor
      · exact Or.inr
      · rintro (rfl | hm)
        · exact absurd rfl h
        · exact hm

theorem alookup_append {T : Type} (l1 l2 : List (String × T)) (k : String) :
    alookup (l1 ++ l2) k
      = match alookup l1 k with
        | some v => some v
        | none => alookup l2 k := by
  induction l1 with
  | nil => simp [alookup_nil]
  | cons p t ih =>
    rw [List.cons_append, alookup_cons, alookup_cons]
    rcases eq_or_ne p.1 k with h | h
    · simp [h]
    · simp [h, ih]

theorem alookup_replace_self {T : Type} (l : List (String × T)) (k : String) (v : T)
    (h : (alookup l k).isSome) :
    alookup (l.map fun p => if p.1 = k then (k, v) else p) k = some v := by
  induction l with
  | nil => simp [alookup_nil] at h
  | cons p t ih =>
    rw [alookup_cons] at h
    rcases eq_or_ne p.1 k with hp | hp
    · rw [List.map_cons, if_pos hp, alookup_cons, if_pos rfl]
    · rw [List.map_cons, if_neg hp, alookup_cons, if_neg hp]
      rw [if_neg hp] at h
      exact ih h

theorem alookup_replace_ne {T : Type} (l : List (String × T)) (k : String) (v : T)
    (j : String) (hj : j ≠ k) :
    alookup (l.map fun p => if p.1 = k then (k, v) else p) j = alookup l j := by
  induction l with
  | nil => simp
  | cons p t ih =>
    rcases eq_or_ne p.1 k with hp | hp
    · rw [List.map_cons, if_pos hp, alookup_cons, alookup_cons,
        if_neg (fun hkj => hj hkj.symm), if_neg (by rw [hp]; exact fun hkj => hj hkj.symm)]
      exact ih
    · rw [List.map_cons, if_neg hp, alookup_cons, alookup_cons]
      rcases eq_or_ne p.1 j with hpj | hpj
      · rw [if_pos hpj, if_pos hpj]
      · rw [if_neg hpj, if_neg hpj]
        exact ih

theorem alookup_dictInsert_self {T : Type} (l : List (String × T)) (k : String) (v : T) :
    alookup (dictInsert l k v) k = some v := by
  unfold dictInsert
  split
  case isTrue h => exact alookup_replace_self l k v h
  case isFalse h =>
    rw [alookup_append]
    rw [Option.isSome_iff_exists] at h
    push_neg at h
    cases hv : alookup l k with
    | some v2 => exact absurd hv (h v2)
    | none => simp [alookup_cons]

theorem alookup_dictInsert_ne {T : Type} (l : List (String × T)) (k : String) (v : T)
    (j : String) (hj : j ≠ k) :
    alookup (dictInsert l k v) j = alookup l j := by
  unfold dictInsert
  split
  case isTrue h => exact alookup_replace_ne l k v j hj
  case isFalse h =>
    rw [alookup_append]
    cases hv : alookup l j with
    | some v2 => rfl
    | none => rw [alookup_cons, if_neg fun hkj => hj hkj.symm, alookup_nil]

theorem replace_map_fst {T : Type} (l : List (String × T)) (k : String) (v : T) :
    ((l.map fun p => if p.1 = k then (k, v) else p).map Prod.fst) = l.map Prod.fst := by
  rw [List.map_map]
  apply List.map_congr_left
  intro p _
  rcases eq_or_ne p.1 k with h | h <;> simp [Function.comp, h]

theorem dictInsert_map_fst_present {T : Type} (l : List (String × T)) (k : String) (v : T)
    (h : (alookup l k).isSome) :
    (dictInsert l k v).map Prod.fst = l.map Prod.fst := by
  unfold dictInsert
  rw [if_pos h]
  exact replace_map_fst l k v

theorem dictInsert_map_fst_new {T : Type} (l : List (String × T)) (k : String) (v : T)
    (h : ¬ (alookup l k).isSome) :
    (dictInsert l k v).map Prod.fst = l.map Prod.fst ++ [k] := by
  unfold dictInsert
  rw [if_neg h, List.map_append]
  rfl

theorem mem_dictErase_keys {T : Type} (l : List (String × T)) (k j : String) :
    j ∈ (dictErase l k).map Prod.fst ↔ j ≠ k ∧ j ∈ l.map Prod.fst := by
  simp only [dictErase, List.mem_map, List.mem_filter, bne_iff_ne, ne_eq]
  constructor
  · rintro ⟨p, ⟨hpl, hpk⟩, rfl⟩
    exact ⟨hpk, ⟨p, hpl, rfl⟩⟩
  · rintro ⟨hjk, p, hpl, rfl⟩
    exact ⟨p, ⟨hpl, hjk⟩, rfl⟩

theorem gbdResample_keys {T : Type} (rroi : T → T) (rt : Bool) (st : GBDState T)
    (key : String) :
    (gbdResample rroi rt st key).dict.map Prod.fst = st.dict.map Prod.fst
      ∧ (gbdResample rroi rt st key).bundle_names = st.bundle_names := by
  unfold gbdResample
  split
  · cases hl : alookup st.dict key with
    | some d =>
      refine ⟨?_, rfl⟩
      exact dictInsert_map_fst_present st.dict key _ (by rw [hl]; rfl)
    | none => exact ⟨rfl, rfl⟩
  · exact ⟨rfl, rfl⟩

/-- C10 (amended): the `_GeneratedBundleDict` invariant — `bundle_names`
equals the internal dictionary's key set, without duplicates, hence
`len(d) == number of keys` — is preserved by `__delitem__` and by
`__setitem__` on a key that is not already present; `__setitem__` on an
existing key breaks it (counterexample `C10_cex`). -/
theorem C10_invariant {T : Type} :
    (∀ (st : GBDState T), gbdInv st → st.bundle_names.length = st.dict.length)
      ∧ (∀ (rroi : T → T) (rt : Bool) (st : GBDState T) (k : String) (v : BundleDef T),
          gbdInv st → ¬ (alookup st.dict k).isSome →
            gbdInv (gbdSetitem rroi rt st k v))
      ∧ (∀ (st : GBDState T) (k : String), gbdInv st → gbdInv (gbdDelitem st k).2) := by
  refine ⟨?_, ?_, ?_⟩
  · rintro st ⟨hn, hk, hm⟩
    have hperm : st.bundle_names.Perm (st.dict.map Prod.fst) :=
      (List.perm_ext_iff_of_nodup hn hk).mpr hm
    calc st.bundle_names.length = (st.dict.map Prod.fst).length := hperm.length_eq
      _ = st.dict.length := List.length_map _ _
  · rintro rroi rt st k v ⟨hn, hk, hm⟩ habs
    have hkn : k ∉ st.bundle_names := fun hc => habs ((alookup_isSome_iff _ _).mpr ((hm k).mp hc))
    have hkk : k ∉ st.dict.map Prod.fst := fun hc => habs ((alookup_isSome_iff _ _).mpr hc)
    unfold gbdSetitem
    obtain ⟨hrk, hrn⟩ := gbdResample_keys rroi rt ⟨dictInsert st.dict k v, st.bundle_names ++ [k]⟩ k
    refine ⟨?_, ?_, ?_⟩
    · rw [hrn]
      exact List.Nodup.append hn (List.nodup_singleton k)
        (List.disjoint_singleton.mpr hkn)
    · rw [hrk]
      show ((dictInsert st.dict k v).map Prod.fst).Nodup
      rw [dictInsert_map_fst_new st.dict k v habs]
      exact List.Nodup.append hk (List.nodup_singleton k)
        (List.disjoint_singleton.mpr hkk)
    · intro j
      rw [hrn]
      show j ∈ st.bundle_names ++ [k] ↔ j ∈ (gbdResample rroi rt _ k).dict.map Prod.fst
      rw [hrk]
      show _ ↔ j ∈ (dictInsert st.dict k v).map Prod.fst
      rw [dictInsert_map_fst_new st.dict k v habs]
      simp only [List.mem_append, List.mem_singleton]
      rw [hm j]
  · rintro st k hinv
    obtain ⟨hn, hk, hm⟩ := hinv
    unfold gbdDelitem
    split
    case isTrue => exact ⟨hn, hk, hm⟩
    case isFalse hcond =>
      cases hl : alookup st.dict k with
      | none =>
        exact ⟨hn, hk, hm⟩
      | some d =>
        have hkmem : k ∈ st.dict.map Prod.fst :=
          (alookup_isSome_iff _ _).mp (by rw [hl]; rfl)
        have hknames : k ∈ st.bundle_names := (hm k).mpr hkmem
        rw [if_pos hknames]
        refine ⟨List.Nodup.erase k hn, ?_, ?_⟩
        · show ((dictErase st.dict k).map Prod.fst).Nodup
          exact List.Nodup.sublist (List.Sublist.map Prod.fst (List.filter_sublist _)) hk
        · intro j
          show j ∈ st.bundle_names.erase k ↔ j ∈ (dictErase st.dict k).map Prod.fst
          rw [List.Nodup.mem_erase_iff hn, mem_dictErase_keys]
          rw [hm j]

/-- C10 witness: the amended theorem's `__delitem__` conjunct applied to
the concrete in-sync state `stC10`. -/
theorem C10_witness : gbdInv (gbdDelitem stC10 "a").2 :=
  (@C10_invariant Unit).2.2 stC10 "a"
    ⟨by simp [stC10], by simp [stC10], fun k => by simp [stC10]⟩

/-- C10 counterexample: from the in-sync one-entry state, `__setitem__`
on the already-present key "a" leaves one dictionary key but makes
`bundle_names` (hence `len(d)`) have length 2, breaking the claimed
invariant. -/
theorem C10_cex :
    gbdInv stC10
      ∧ (alookup stC10.dict "a").isSome
      ∧ (gbdSetitem (fun t => t) false stC10 "a" defU).bundle_names.length = 2
      ∧ ((gbdSetitem (fun t => t) false stC10 "a" defU).dict.map Prod.fst).length = 1 := by
  refine ⟨⟨by simp [stC10], by simp [stC10], fun k => by simp [stC10]⟩, ?_, ?_, ?_⟩
  · rfl
  · rfl
  · rfl

/-- C6: evaluating `BundleDict.gen` on bundle `CST_L` with templates
containing `CST_roi1_L`, `CST_roi2_L`, `CST_L_start = 3` and
`CST_L_end = 4` stores a definition whose 'start' field holds the
`_end` template (4) and whose 'end' field is None: line 274 of
`bundle_dict.py` assigns the `_end` template to the variable `start`. -/
theorem C6_bug :
    tmplC6 "CST_L_start" = some 3 ∧ tmplC6 "CST_L_end" = some 4
      ∧ alookup (gen envC6 stC6 "CST_L").2.dict "CST_L"
          = some (BDItem.def_ ⟨[1, 2], [], some 4, none, false, none, false⟩) := by
  refine ⟨rfl, rfl, ?_⟩
  rfl

theorem load_templates_fields {T : Type} (env : BDEnv T) (st s : BDState T)
    (h : load_templates env st = .ok s) :
    s.loads = st.loads + 1 ∧ s.templates_loaded = true ∧ s.dict = st.dict
      ∧ s.seg_algo = st.seg_algo := by
  unfold load_templates at h
  split at h
  · injection h with h
    subst h
    exact ⟨rfl, rfl, rfl, rfl⟩
  · split at h
    · injection h with h
      subst h
      exact ⟨rfl, rfl, rfl, rfl⟩
    · exact absurd h (by simp)

theorem gen_load_step {T : Type} (env : BDEnv T) (st : BDState T)
    (halgo : st.seg_algo = "afq") :
    (if st.templates_loaded then Except.ok st else load_templates env st)
      = .ok (loadedState env st) := by
  unfold loadedState
  split
  · rfl
  · cases hl : load_templates env st with
    | ok s => rfl
    | error e =>
      exfalso
      unfold load_templates at hl
      rw [if_pos halgo] at hl
      exact absurd hl (by simp)

theorem loadedState_fields {T : Type} (env : BDEnv T) (st : BDState T)
    (halgo : st.seg_algo = "afq") :
    (loadedState env st).dict = st.dict ∧ (loadedState env st).seg_algo = "afq" := by
  unfold loadedState
  split
  · exact ⟨rfl, halgo⟩
  · cases hl : load_templates env st with
    | ok s =>
      obtain ⟨-, -, hd, hsa⟩ := load_templates_fields env st s hl
      exact ⟨hd, by rw [hsa, halgo]⟩
    | error e => exact ⟨rfl, halgo⟩

/-- C7: under "afq", when either waypoint ROI of a bundle name is
missing from the loaded templates, `gen` raises
`ValueError(f"{name} is not in AFQ templates")` leaving the
dictionary exactly as before the call (the load step touches only the
template fields), and `__getitem__` on an unstored name propagates the
same error without storing anything. -/
theorem C7_missing_roi {T : Type} (env : BDEnv T) (st : BDState T) (k : String)
    (halgo : st.seg_algo = "afq")
    (hnotin : alookup st.dict k = none)
    (hmiss : ((loadedState env st).templates (roiNames k).1) = none
      ∨ ((loadedState env st).templates (roiNames k).2) = none) :
    gen env st k = (.error (k ++ " is not in AFQ templates"), loadedState env st)
      ∧ (loadedState env st).dict = st.dict
      ∧ bdGetitem env st k = (.error (k ++ " is not in AFQ templates"), loadedState env st) := by
  obtain ⟨hdict, hsa⟩ := loadedState_fields env st halgo
  have hgen : gen env st k = (.error (k ++ " is not in AFQ templates"), loadedState env st) := by
    unfold gen
    rw [gen_load_step env st halgo]
    show (if (loadedState env st).seg_algo = "afq" then _ else _) = _
    rw [if_pos hsa]
    rcases hmiss with hm | hm
    · rw [hm]
    · rw [hm]
      cases (loadedState env st).templates (roiNames k).1 <;> rfl
  refine ⟨hgen, hdict, ?_⟩
  unfold bdGetitem
  rw [hnotin, hgen]

/-- C7 witness: the theorem applied to the concrete state `stC7`, whose
loaded templates contain nothing at all. -/
theorem C7_witness :
    gen envC6 stC7 "CST_L"
      = (.error ("CST_L" ++ " is not in AFQ templates"), loadedState envC6 stC7)
      ∧ (loadedState envC6 stC7).dict = stC7.dict
      ∧ bdGetitem envC6 stC7 "CST_L"
        = (.error ("CST_L" ++ " is not in AFQ templates"), loadedState envC6 stC7) :=
  C7_missing_roi envC6 stC7 "CST_L" rfl rfl (Or.inl rfl)

theorem bdResample_loads {T : Type} (env : BDEnv T) (st : BDState T) (key : String) :
    (bdResample env st key).loads = st.loads := by
  unfold bdResample
  split
  · split <;> rfl
  · rfl

theorem bdResample_loaded {T : Type} (env : BDEnv T) (st : BDState T) (key : String) :
    (bdResample env st key).templates_loaded = st.templates_loaded := by
  unfold bdResample
  split
  · split <;> rfl
  · rfl

theorem bdResample_alookup_ne {T : Type} (env : BDEnv T) (st : BDState T) (key j : String)
    (hj : j ≠ key) :
    alookup (bdResample env st key).dict j = alookup st.dict j := by
  unfold bdResample
  split
  · split
    · exact alookup_dictInsert_ne _ _ _ _ hj
    · rfl
  · rfl

theorem genBody_state {T : Type} (env : BDEnv T) (st : BDState T) (k : String) :
    (genBody env st k).2.loads = st.loads
      ∧ (genBody env st k).2.templates_loaded = st.templates_loaded
      ∧ ∀ j, j ≠ k → alookup (genBody env st k).2.dict j = alookup st.dict j := by
  unfold genBody
  split
  · cases h1 : st.templates (roiNames k).1 with
    | none => exact ⟨rfl, rfl, fun j hj => rfl⟩
    | some t1 =>
      cases h2 : st.templates (roiNames k).2 with
      | none => exact ⟨rfl, rfl, fun j hj => rfl⟩
      | some t2 =>
        refine ⟨by rw [bdResample_loads], by rw [bdResample_loaded], ?_⟩
        intro j hj
        rw [bdResample_alookup_ne _ _ _ _ hj]
        exact alookup_dictInsert_ne _ _ _ _ hj
  · split
    · cases h1 : st.templates k with
      | none => exact ⟨rfl, rfl, fun j hj => rfl⟩
      | some t => exact ⟨rfl, rfl, fun j hj => alookup_dictInsert_ne _ _ _ _ hj⟩
    · exact ⟨rfl, rfl, fun j hj => rfl⟩

theorem gen_state {T : Type} (env : BDEnv T) (st : BDState T) (k : String) :
    ((gen env st k).2.loads = st.loads
        ∧ (gen env st k).2.templates_loaded = st.templates_loaded)
      ∨ (st.templates_loaded = false ∧ (gen env st k).2.loads = st.loads + 1
        ∧ (gen env st k).2.templates_loaded = true) := by
  unfold gen
  by_cases hl : st.templates_loaded
  · rw [if_pos hl]
    obtain ⟨h1, h2, -⟩ := genBody_state env st k
    exact Or.inl ⟨h1, h2⟩
  · rw [if_neg hl]
    cases hload : load_templates env st with
    | error e => exact Or.inl ⟨rfl, rfl⟩
    | ok s =>
      obtain ⟨hs1, hs2, -, -⟩ := load_templates_fields env st s hload
      obtain ⟨g1, g2, -⟩ := genBody_state env s k
      right
      refine ⟨by simpa using hl, ?_, ?_⟩
      · rw [g1, hs1]
      · rw [g2, hs2]

theorem gen_alookup_ne {T : Type} (env : BDEnv T) (st : BDState T) (k j : String)
    (hj : j ≠ k) :
    alookup (gen env st k).2.dict j = alookup st.dict j := by
  unfold gen
  by_cases hl : st.templates_loaded
  · rw [if_pos hl]
    exact (genBody_state env st k).2.2 j hj
  · rw [if_neg hl]
    cases hload : load_templates env st with
    | error e => rfl
    | ok s =>
      obtain ⟨-, -, hdict, -⟩ := load_templates_fields env st s hload
      rw [(genBody_state env s k).2.2 j hj, hdict]

theorem bdGetitem_state {T : Type} (env : BDEnv T) (st : BDState T) (k : String) :
    (bdGetitem env st k).2 = st ∨ (bdGetitem env st k).2 = (gen env st k).2 := by
  unfold bdGetitem
  cases hlk : alookup st.dict k with
  | some v => exact Or.inl rfl
  | none =>
    cases hg : gen env st k with
    | mk e st1 =>
      right
      cases e with
      | ok u =>
        dsimp only
        cases hlk2 : alookup st1.dict k <;> rfl
      | error e2 => rfl

theorem bdGetitem_loads {T : Type} (env : BDEnv T) (st : BDState T) (k : String)
    (hinv : st.loads = if st.templates_loaded then 1 else 0) :
    (bdGetitem env st k).2.loads
      = if (bdGetitem env st k).2.templates_loaded then 1 else 0 := by
  rcases bdGetitem_state env st k with h | h
  · rw [h]; exact hinv
  · rw [h]
    rcases gen_state env st k with ⟨h1, h2⟩ | ⟨h0, h1, h2⟩
    · rw [h1, h2]; exact hinv
    · rw [h0] at hinv
      rw [h1, h2]
      simp at hinv ⊢
      omega

theorem runGets_loads {T : Type} (env : BDEnv T) (ks : List String) :
    ∀ st : BDState T, st.loads = (if st.templates_loaded then 1 else 0) →
      (runGets env st ks).loads
        = (if (runGets env st ks).templates_loaded then 1 else 0) := by
  induction ks with
  | nil => intro st h; exact h
  | cons k ks ih => intro st h; exact ih _ (bdGetitem_loads env st k h)

/-- C5: `BundleDict` resolution is lazy and cached. Construction from a
name list stores no definitions and loads no templates; along any
sequence of `__getitem__` calls the templates are loaded at most once
(the ghost counter `loads` never exceeds 1); a successful first
`__getitem__` stores the returned definition under its name; a later
`__getitem__` of a stored name returns the stored value with the state
untouched; and resolving one name never changes any other entry. -/
theorem C5_lazy_cached {T : Type} :
    (∀ (sa : String) (names : List String),
        (initFromList sa names : BDState T).dict = []
          ∧ (initFromList sa names : BDState T).templates_loaded = false
          ∧ (initFromList sa names : BDState T).loads = 0)
      ∧ (∀ (env : BDEnv T) (sa : String) (names ks : List String),
          (runGets env (initFromList sa names) ks).loads ≤ 1)
      ∧ (∀ (env : BDEnv T) (st : BDState T) (k : String) (v : BDItem T),
          alookup st.dict k = some v → bdGetitem env st k = (.ok v, st))
      ∧ (∀ (env : BDEnv T) (st : BDState T) (k : String) (v : BDItem T),
          alookup st.dict k = none → (bdGetitem env st k).1 = .ok v →
            alookup (bdGetitem env st k).2.dict k = some v)
      ∧ (∀ (env : BDEnv T) (st : BDState T) (k j : String), j ≠ k →
          alookup (bdGetitem env st k).2.dict j = alookup st.dict j) := by
  refine ⟨?_, ?_, ?_, ?_, ?_⟩
  · intro sa names
    exact ⟨rfl, rfl, rfl⟩
  · intro env sa names ks
    have h := runGets_loads env ks (initFromList sa names) rfl
    rw [h]
    split <;> omega
  · intro env st k v h
    unfold bdGetitem
    rw [h]
  · intro env st k v hnone hok
    unfold bdGetitem at hok ⊢
    rw [hnone] at hok ⊢
    cases hg : gen env st k with
    | mk e st1 =>
      cases e with
      | ok u =>
        rw [hg] at hok
        dsimp only at hok ⊢
        cases hlk2 : alookup st1.dict k with
        | some w =>
          rw [hlk2] at hok
          dsimp only at hok ⊢
          injection hok with hw
          rw [hlk2, hw]
        | none =>
          rw [hlk2] at hok
          exact absurd hok (by simp)
      | error e2 =>
        rw [hg] at hok
        exact absurd hok (by simp)
  · intro env st k j hj
    unfold bdGetitem
    cases hlk : alookup st.dict k with
    | some v => rfl
    | none =>
      have hne := gen_alookup_ne env st k j hj
      cases hg : gen env st k with
      | mk e st1 =>
        rw [hg] at hne
        cases e with
        | ok u =>
          dsimp only
          cases hlk2 : alookup st1.dict k <;> (dsimp only; exact hne)
        | error e2 => exact hne

/-- C5 witness: the cached-read conjunct applied to the concrete state
`stC5`, which stores an entry under `CST_L`. -/
theorem C5_witness : bdGetitem envC6 stC5 "CST_L" = (.ok (BDItem.raw 7), stC5) :=
  (@C5_lazy_cached ℕ).2.2.1 envC6 stC5 "CST_L" (BDItem.raw 7) rfl

theorem runBatches_succ {α : Type} (rowf : ℕ → α) (V bs n : ℕ) (arr : List α) :
    runBatches rowf V bs (n + 1) arr
      = setRows (runBatches rowf V bs n arr) (n * bs) (min ((n + 1) * bs) V) rowf := by
  unfold runBatches
  rw [List.range_succ, List.foldl_append]
  rfl

theorem runBatches_inv {α : Type} (rowf : ℕ → α) (V bs : ℕ) (arr : List α)
    (hlen : arr.length = V) :
    ∀ n : ℕ, runBatches rowf V bs n arr
      = (List.range' 0 (min (n * bs) V)).map rowf ++ arr.drop (min (n * bs) V) := by
  intro n
  induction n with
  | zero => simp [runBatches]
  | succ n ih =>
    rw [runBatches_succ, ih]
    by_cases hc : V ≤ n * bs
    · have hm : min (n * bs) V = V := min_eq_right hc
      have hm2 : min ((n + 1) * bs) V = V :=
        min_eq_right (le_trans hc (Nat.mul_le_mul_right bs (Nat.le_succ n)))
      rw [hm, hm2, List.drop_eq_nil_of_le (le_of_eq hlen), List.append_nil]
      unfold setRows
      have hsub : V - n * bs = 0 := Nat.sub_eq_zero_of_le hc
      have hlen2 : ((List.range' 0 V).map rowf).length = V := by
        rw [List.length_map, List.length_range']
      rw [hsub, List.take_of_length_le (by rw [hlen2]; exact hc),
        List.drop_eq_nil_of_le (le_of_eq hlen2)]
      simp
    · push_neg at hc
      have hm : min (n * bs) V = n * bs := min_eq_left (le_of_lt hc)
      rw [hm]
      unfold setRows
      have hA : ((List.range' 0 (n * bs)).map rowf).length = n * bs := by
        rw [List.length_map, List.length_range']
      have hle : n * bs ≤ min ((n + 1) * bs) V := by
        rcases le_or_lt ((n + 1) * bs) V with h | h
        · rw [min_eq_left h]
          exact Nat.mul_le_mul_right bs (Nat.le_succ n)
        · rw [min_eq_right (le_of_lt h)]
          exact le_of_lt hc
      have htake : ((List.range' 0 (n * bs)).map rowf ++ arr.drop (n * bs)).take (n * bs)
          = (List.range' 0 (n * bs)).map rowf := List.take_left' hA
      have hdrop : ((List.range' 0 (n * bs)).map rowf ++ arr.drop (n * bs)).drop
            (min ((n + 1) * bs) V)
          = arr.drop (min ((n + 1) * bs) V) := by
        have h1 : min ((n + 1) * bs) V = ((List.range' 0 (n * bs)).map rowf).length
            + (min ((n + 1) * bs) V - n * bs) := by
          rw [hA]
          omega
        rw [h1, List.drop_append, List.drop_drop]
        congr 1
        omega
      rw [htake, hdrop, ← List.map_append]
      congr 2
      have := List.range'_append 0 (n * bs) (min ((n + 1) * bs) V - n * bs) 1
      simp only [Nat.zero_add, Nat.one_mul] at this
      rw [this]
      congr 1
      omega

theorem runBatches_full {α : Type} (rowf : ℕ → α) (V bs n : ℕ) (arr : List α)
    (hlen : arr.length = V) (hcover : V ≤ n * bs) :
    runBatches rowf V bs n arr = (List.range' 0 V).map rowf := by
  rw [runBatches_inv rowf V bs arr hlen n, min_eq_right hcover,
    List.drop_eq_nil_of_le (le_of_eq hlen), List.append_nil]

theorem ceil_cover (V nbn : ℕ) (h : 1 ≤ nbn) : V ≤ nbn * ((V + nbn - 1) / nbn) := by
  have hdm := Nat.div_add_mod (V + nbn - 1) nbn
  have hmod : (V + nbn - 1) % nbn < nbn := Nat.mod_lt _ h
  omega

theorem batches_fill (voxels : List (Vec3 × Mat3)) (vertices : List Vec3) (nbn : ℕ)
    (hn : 1 ≤ nbn) :
    runBatches (fun a => odfRow (maskFilter voxels) (vertices.getD a ⟨0, 0, 0⟩))
      vertices.length ((vertices.length + nbn - 1) / max nbn 1) nbn
      (List.replicate vertices.length (List.replicate (maskFilter voxels).length 0))
    = (List.range' 0 vertices.length).map
        (fun a => odfRow (maskFilter voxels) (vertices.getD a ⟨0, 0, 0⟩)) := by
  have hmax : max nbn 1 = nbn := Nat.max_eq_left hn
  rw [hmax]
  exact runBatches_full _ _ _ _ _ (List.length_replicate _ _) (ceil_cover _ _ hn)

/-- C8 (amended): `tensor_odf` is batch-invariant — every batch count
`num_batches >= 1` produces exactly the array produced with
`num_batches = 1`, and so does `num_batches = -1` (one batch per
vertex) whenever the sphere has at least one vertex.  (With an empty
sphere, `num_batches = -1` makes `batch_size = math.ceil(0 / 0)` divide
by zero instead of returning: counterexample `C8_cex`.) -/
theorem C8_batch_invariant (voxels : List (Vec3 × Mat3)) (vertices : List Vec3)
    (nb : ℤ) (h : 1 ≤ nb ∨ (nb = -1 ∧ vertices ≠ [])) :
    tensor_odf voxels vertices nb = tensor_odf voxels vertices 1 := by
  simp only [tensor_odf]
  rcases h with h1 | ⟨hm1, hne⟩
  · have hne1 : nb ≠ -1 := by omega
    have hne0 : nb ≠ 0 := by omega
    simp only [if_neg hne1]
    rw [if_neg hne0, if_neg (by norm_num : ¬ (1 : ℤ) = -1), if_neg one_ne_zero]
    have ht1 : (1 : ℤ).toNat = 1 := rfl
    rw [ht1, batches_fill voxels vertices nb.toNat (by omega),
      batches_fill voxels vertices 1 le_rfl]
  · subst hm1
    have hV : 1 ≤ vertices.length := List.length_pos.mpr hne
    have hVne : ((vertices.length : ℤ)) ≠ 0 := by
      exact_mod_cast Nat.one_le_iff_ne_zero.mp hV
    rw [show (if (-1 : ℤ) = -1 then (vertices.length : ℤ) else -1) = (vertices.length : ℤ)
      from if_pos rfl]
    rw [if_neg hVne, if_neg (by norm_num : ¬ (1 : ℤ) = -1), if_neg one_ne_zero]
    have ht1 : (1 : ℤ).toNat = 1 := rfl
    rw [ht1, Int.toNat_natCast, batches_fill voxels vertices vertices.length hV,
      batches_fill voxels vertices 1 le_rfl]

/-- C8 witness: the theorem applied at a concrete one-vertex sphere and
`num_batches = 2`. -/
theorem C8_witness :
    tensor_odf [] [⟨0, 0, 0⟩] 2 = tensor_odf [] [⟨0, 0, 0⟩] 1 :=
  C8_batch_invariant [] [⟨0, 0, 0⟩] 2 (Or.inl (by norm_num))

/-- C8 counterexample: with an empty sphere, `num_batches = -1` divides
by zero (`math.ceil(0 / 0)`) where `num_batches = 1` returns the empty
ODF array, so the `-1` case is not unconditionally equal to the
single-batch result. -/
theorem C8_cex :
    tensor_odf [] [] (-1) = none ∧ tensor_odf [] [] 1 = some [] := by
  constructor
  · simp [tensor_odf]
  · simp [tensor_odf, runBatches, setRows, odfPost, maskFilter, scatterRows]
